import Mathlib

/-!
Verification development for scripts/lib/send_deposits.py (all-phase-testnet).

The script is shallowly embedded: the outside world (HTTP transport, the
docker-run signing container, wall-clock deadlines) is passed in as explicit
oracle arguments, and every timed polling loop takes a fuel argument equal to
the number of poll rounds that begin before its deadline.  Decoded JSON values
are modelled by `PyVal` (Python None = JSON null is the constructor `vnone`),
and a decoded JSON-RPC reply by `Reply`, an association list for the response
object.  Python exceptions that the source can raise and does not catch are
modelled with `Except String`.
-/

/-- A decoded JSON value as Python sees it after json.loads: null becomes
Python None (`vnone`); the script only ever inspects strings and objects. -/
inductive PyVal where
  | vnone : PyVal
  | vstr : String → PyVal
  | vdict : List (String × PyVal) → PyVal

/-- Python truthiness for the values above: None is falsy, a string is truthy
iff nonempty, a dict is truthy iff nonempty. -/
def pyTruthy : PyVal → Bool
  | .vnone => false
  | .vstr s => !s.isEmpty
  | .vdict f => !f.isEmpty

/-- A decoded JSON-RPC response object (the script only indexes replies as
dicts, so the embedding fixes replies to be JSON objects). -/
abbrev Reply := List (String × PyVal)

/-- Endpoint addresses are plain strings. -/
abbrev Endpoint := String

/-- Python truthiness of the whole decoded reply object (`if result and ...`). -/
def replyTruthy (r : Reply) : Bool := !r.isEmpty

/-- Dict lookup, `result["result"]` / `"result" in result`. -/
def getKey (r : Reply) (k : String) : Option PyVal := List.lookup k r

/-- Value of one hexadecimal digit character, if any. -/
def hexDigit? (c : Char) : Option Nat :=
  if c.isDigit then some (c.toNat - 48)
  else if 'a' ≤ c && c ≤ 'f' then some (c.toNat - 87)
  else if 'A' ≤ c && c ≤ 'F' then some (c.toNat - 55)
  else none

/-- Parse a base-16 numeral with optional 0x / 0X prefix, as accepted by
Python int(s, 16) on the values this script meets (plain nonnegative hex
strings such as "0x1a"). Returns none where Python raises ValueError. -/
def parseHexNat (s : String) : Option Nat :=
  let cs := s.data
  let cs := if cs.take 2 = ['0', 'x'] ∨ cs.take 2 = ['0', 'X'] then cs.drop 2 else cs
  if cs.isEmpty then none
  else cs.foldl (fun acc? c => acc?.bind fun acc => (hexDigit? c).map fun d => acc * 16 + d)
    (some 0)

/-- The whitespace characters Python str.strip() removes by default: space,
tab, newline, carriage return, vertical tab and form feed. -/
def isPySpace (c : Char) : Bool :=
  c = ' ' || c = '\t' || c = '\n' || c = '\r' || c = Char.ofNat 11 || c = Char.ofNat 12

/-- Python str.strip(): drop leading and trailing whitespace. -/
def pyStrip (s : String) : String :=
  String.mk (((s.data.dropWhile isPySpace).reverse.dropWhile isPySpace).reverse)

/-- Helper for pySplitNl: walk the characters, cutting at each newline; the
accumulator holds the current field reversed. -/
def splitLinesAux : List Char → List Char → List String
  | [], acc => [String.mk acc.reverse]
  | c :: cs, acc =>
    if c = '\n' then String.mk acc.reverse :: splitLinesAux cs []
    else splitLinesAux cs (c :: acc)

/-- Python s.split(chr(10)): the empty string yields the one-element list
holding the empty string, and every newline cuts a field. -/
def pySplitNl (s : String) : List String := splitLinesAux s.data []

/-- Bool test that the first list is a prefix of the second. -/
def charPrefix : List Char → List Char → Bool
  | [], _ => true
  | _ :: _, [] => false
  | p :: ps, c :: cs => p = c && charPrefix ps cs

/-- Python s.startswith(pre). -/
def pyStartsWith (s pre : String) : Bool := charPrefix pre.data s.data

/-- Python int(v, 16): a TypeError on non-strings (in particular on None from
a null result), a ValueError on a string that is not a hex numeral. -/
def pyIntHex (v : PyVal) : Except String Nat :=
  match v with
  | .vstr s =>
    match parseHexNat (pyStrip s) with
    | some n => .ok n
    | none => .error "ValueError"
  | _ => .error "TypeError"

/-- Rendering of the Python value bound to `current` in the pacing warning
line: the integer in decimal, or the literal None. -/
def pyReprOptNat : Option Nat → String
  | none => "None"
  | some n => toString n

/-- Outcome of the single HTTP exchange attempted by rpc_call: `fail` is any
exception raised inside the try block (connection refused, timeout, a non-2xx
status, a failed read), `reply o` is a 2xx body, with `o = none` when
json.loads rejects it (that exception is also caught) and `o = some j` when it
decodes to the object j. -/
inductive Transport where
  | fail : Transport
  | reply : Option Reply → Transport

/-- rpc_call(endpoint, method, params, timeout): serialize, send once, decode;
every failure inside the try block yields Python None.  The endpoint, method,
params and timeout only shape the outbound request, whose outcome is the
`Transport` argument. -/
def rpc_call (endpoint method : String) (params : List PyVal) (timeout : Nat)
    (t : Transport) : Option Reply :=
  match t with
  | .fail => none
  | .reply none => none
  | .reply (some j) => some j

/-- rpc_call over a trace of pending transport events: exactly one event is
consumed per call (there is no retry at this layer). -/
def rpc_call_trace (endpoint method : String) (params : List PyVal) (timeout : Nat) :
    List Transport → Option Reply × List Transport
  | [] => (none, [])
  | t :: rest => (rpc_call endpoint method params timeout t, rest)

/-- get_nonce(endpoints, address, block): first endpoint whose reply is truthy
and carries a "result" key wins; its value goes through int(value, 16), whose
exceptions propagate (hence the Except).  All endpoints exhausted gives None.
The rpc oracle maps each endpoint to the decoded outcome of its rpc_call. -/
def get_nonce (rpc : Endpoint → Option Reply) : List Endpoint → Except String (Option Nat)
  | [] => .ok none
  | ep :: rest =>
    match rpc ep with
    | some r =>
      if replyTruthy r then
        match getKey r "result" with
        | some v => (pyIntHex v).map some
        | none => get_nonce rpc rest
      else get_nonce rpc rest
    | none => get_nonce rpc rest

/-- One step of the broadcast fold: a truthy reply holding a "result" key
overwrites tx_hash with that value; everything else leaves tx_hash alone. -/
def broadcast_step (tx_hash : PyVal) (orep : Option Reply) : PyVal :=
  match orep with
  | some r =>
    if replyTruthy r then
      match getKey r "result" with
      | some v => v
      | none => tx_hash
    else tx_hash
  | none => tx_hash

/-- broadcast_raw_tx(endpoints, raw_tx): send the same blob to every endpoint,
keep the last "result" value seen, start from Python None.  raw_tx only shapes
the outbound requests, whose outcomes the rpc oracle holds. -/
def broadcast_raw_tx (rpc : Endpoint → Option Reply) (endpoints : List Endpoint)
    (raw_tx : String) : PyVal :=
  endpoints.foldl (fun h ep => broadcast_step h (rpc ep)) .vnone

/-- One polling round of wait_for_receipt: first endpoint whose reply is
truthy and whose "result" value is itself truthy returns that value. -/
def receipt_round (rpc : Endpoint → Option Reply) : List Endpoint → Option PyVal
  | [] => none
  | ep :: rest =>
    match rpc ep with
    | some r =>
      if replyTruthy r then
        match getKey r "result" with
        | some v => if pyTruthy v then some v else receipt_round rpc rest
        | none => receipt_round rpc rest
      else receipt_round rpc rest
    | none => receipt_round rpc rest

/-- wait_for_receipt with the deadline modelled as fuel: the round-indexed rpc
oracle gives each poll rounds responses; fuel is the number of rounds whose
start precedes the deadline.  Returns the first truthy receipt value, or none
when the deadline elapses. -/
def wait_for_receipt_aux (rpc : Nat → Endpoint → Option Reply) (endpoints : List Endpoint) :
    Nat → Nat → Option PyVal
  | _, 0 => none
  | round, fuel + 1 =>
    match receipt_round (rpc round) endpoints with
    | some v => some v
    | none => wait_for_receipt_aux rpc endpoints (round + 1) fuel

/-- wait_for_receipt(endpoints, tx_hash, timeout). -/
def wait_for_receipt (rpc : Nat → Endpoint → Option Reply) (endpoints : List Endpoint)
    (fuel : Nat) : Option PyVal :=
  wait_for_receipt_aux rpc endpoints 0 fuel

/-- One deposit record as consumed from deposit_data.json: four opaque hex
strings. -/
structure DepositIntent where
  pubkey : String
  withdrawal_credentials : String
  signature : String
  deposit_data_root : String

/-- Outcome of the one subprocess.run docker invocation: its exit code and its
captured standard output text. -/
structure DockerResult where
  returncode : Int
  stdout : String

/-- The nonce values the generated signing script embeds, base_nonce + i for
the i-th deposit of the batch in input order (the --nonce flag of each
cast mktx line built by sign_batch). -/
def sign_cmd_nonces (deposits : List DepositIntent) (base_nonce : Nat) : List Nat :=
  (List.range deposits.length).map fun i => base_nonce + i

/-- The stdout parsing at the end of sign_batch: strip the whole text, split
on newlines, and keep a stripped line as a raw tx iff it is nonempty, not the
SIGN_FAILED marker, and starts with 0x; every other line contributes None.
Note the number of entries is the number of stdout lines, independent of the
number of deposits in the batch. -/
def parse_sign_output (stdout : String) : List (Option String) :=
  (pySplitNl (pyStrip stdout)).map fun line =>
    let l := pyStrip line
    if l ≠ "" && l ≠ "SIGN_FAILED" && pyStartsWith l "0x" then some l else none

/-- sign_batch(deposits, ..., base_nonce, endpoints, ...): builds one shell
script that probes the endpoints for a live signer RPC and then emits one
cast mktx line per deposit with nonce base_nonce + i (sign_cmd_nonces), runs
it in one docker container (outcome: the docker argument), and parses the
captured stdout.  The deposits, key material and endpoints shape only the
script text, whose effect the DockerResult oracle captures. -/
def sign_batch (deposits : List DepositIntent) (base_nonce : Nat)
    (docker : DockerResult) : List (Option String) :=
  parse_sign_output docker.stdout

/-- The per-item loop of send_batch over the parsed raw txs: a truthy raw tx
is broadcast (the bcast oracle gives each item index its endpoint responses),
counting sent on a truthy tx hash and failed otherwise; a falsy slot counts
failed without any broadcast. -/
def send_batch_items (bcast : Nat → Endpoint → Option Reply) (endpoints : List Endpoint) :
    List (Option String) → Nat → Nat → Nat → Nat × Nat
  | [], _, sent, failed => (sent, failed)
  | rtx :: rest, i, sent, failed =>
    match rtx with
    | some raw =>
      if raw.isEmpty then send_batch_items bcast endpoints rest (i + 1) sent (failed + 1)
      else if pyTruthy (broadcast_raw_tx (bcast i) endpoints raw) then
        send_batch_items bcast endpoints rest (i + 1) (sent + 1) failed
      else send_batch_items bcast endpoints rest (i + 1) sent (failed + 1)
    | none => send_batch_items bcast endpoints rest (i + 1) sent (failed + 1)

/-- send_batch(deposits, config, base_nonce): sign the batch, then broadcast
each truthy raw tx; returns (sent, failed). -/
def send_batch (deposits : List DepositIntent) (docker : DockerResult)
    (bcast : Nat → Endpoint → Option Reply) (endpoints : List Endpoint)
    (base_nonce : Nat) : Nat × Nat :=
  send_batch_items bcast endpoints (sign_batch deposits base_nonce docker) 0 0 0

/-- mint_tokens(config, amount): one docker signing run, then broadcast, then
wait for a receipt.  Returns True only when a receipt is observed within the
wait window; a nonzero signer exit, a stripped stdout that is empty or does
not start with 0x, or a falsy broadcast outcome each return False before any
receipt poll. -/
def mint_tokens (endpoints : List Endpoint) (docker : DockerResult)
    (bcast : Endpoint → Option Reply) (receiptRpc : Nat → Endpoint → Option Reply)
    (receiptFuel : Nat) : Bool :=
  if docker.returncode ≠ 0 then false
  else
    let raw_tx := pyStrip docker.stdout
    if raw_tx.isEmpty then false
    else if !pyStartsWith raw_tx "0x" then false
    else
      let tx_hash := broadcast_raw_tx bcast endpoints raw_tx
      if !pyTruthy tx_hash then false
      else (wait_for_receipt receiptRpc endpoints receiptFuel).isSome

/-- Exit status of the mint subcommand of main: 0 when mint_tokens returns
True, 1 otherwise. -/
def main_mint (endpoints : List Endpoint) (docker : DockerResult)
    (bcast : Endpoint → Option Reply) (receiptRpc : Nat → Endpoint → Option Reply)
    (receiptFuel : Nat) : Nat :=
  if mint_tokens endpoints docker bcast receiptRpc receiptFuel then 0 else 1

/-- Run configuration fields the dispatch path reads; the remaining config
fields (key material, chain id, contract, value, docker image and network)
shape only the outbound requests, absorbed by the oracles. -/
structure Config where
  batch_size : Nat
  el_endpoints : List Endpoint

/-- The outside world of one dispatch run: responses to the initial pending
nonce read, the docker outcome per batch index, the broadcast responses per
(batch index, item index), the latest-nonce poll responses per (batch index,
poll round), and the number of poll rounds each pacing barrier fits before
its 120 second deadline. -/
structure DispatchWorld where
  pending : Endpoint → Option Reply
  docker : Nat → DockerResult
  bcast : Nat → Nat → Endpoint → Option Reply
  pace : Nat → Nat → Endpoint → Option Reply
  paceFuel : Nat → Nat

/-- Everything observable about one dispatch run: the process exit status,
the standard output and error lines in order, the final sent and failed
totals, the value of the nonce variable after the loop, the (base nonce,
batch length) pair of each executed batch, and the warned flag of each pacing
barrier that ran. -/
structure DispatchResult where
  exitCode : Nat
  stdout : List String
  stderr : List String
  totalSent : Nat
  totalFailed : Nat
  finalNonce : Option Nat
  bases : List (Nat × Nat)
  warned : List Bool

/-- The pacing barrier loop: poll get_nonce (latest) once per round while the
deadline has not passed; stop early without warning as soon as a poll returns
a value at least expected; when fuel (the rounds fitting before the deadline)
runs out, return with the warned flag set and the last current value.  A
parse failure inside get_nonce propagates as an uncaught exception. -/
def pace_loop (rpc : Nat → Endpoint → Option Reply) (endpoints : List Endpoint)
    (expected : Nat) : Nat → Nat → Option Nat → Except String (Bool × Option Nat)
  | _, 0, current => .ok (true, current)
  | round, fuel + 1, _ =>
    match get_nonce (rpc round) endpoints with
    | .error e => .error e
    | .ok current =>
      match current with
      | some c =>
        if expected ≤ c then .ok (false, some c)
        else pace_loop rpc endpoints expected (round + 1) fuel current
      | none => pace_loop rpc endpoints expected (round + 1) fuel current

/-- The per-batch loop of main: slice batch_size deposits, send the batch at
the current nonce, extend the totals and the progress output, run the pacing
barrier when more deposits remain, advance the nonce by the batch length, and
print the final summary when no deposits remain.  The fuel argument is a model
artifact bounding the iteration count; main passes the deposit count, which is
always sufficient because every iteration consumes at least one deposit. -/
def dispatch_loop (w : DispatchWorld) (cfg : Config) (count : Nat) :
    Nat → List DepositIntent → Nat → Nat → Nat → Nat → List String →
    List (Nat × Nat) → List Bool → Except String DispatchResult
  | _, [], _, nonce, tS, tF, out, bases, warned =>
    .ok { exitCode := 0
          stdout := out ++ ["DONE sent=" ++ toString tS ++ " failed=" ++ toString tF]
          stderr := []
          totalSent := tS
          totalFailed := tF
          finalNonce := some nonce
          bases := bases
          warned := warned }
  | 0, _ :: _, _, _, _, _, _, _, _ => .error "model loop fuel exhausted"
  | fuel + 1, d :: rest, batchIdx, nonce, tS, tF, out, bases, warned =>
    let remaining := d :: rest
    let batch := remaining.take cfg.batch_size
    let sf := send_batch batch (w.docker batchIdx) (w.bcast batchIdx) cfg.el_endpoints nonce
    let tS2 := tS + sf.1
    let tF2 := tF + sf.2
    let expected := nonce + batch.length
    let progress := "Sent " ++ toString (tS2 + tF2) ++ "/" ++ toString count ++
      " deposits (" ++ toString tF2 ++ " failed)"
    let rest2 := remaining.drop cfg.batch_size
    if rest2.isEmpty then
      dispatch_loop w cfg count fuel rest2 (batchIdx + 1) expected tS2 tF2
        (out ++ [progress]) (bases ++ [(nonce, batch.length)]) warned
    else
      match pace_loop (w.pace batchIdx) cfg.el_endpoints expected 0 (w.paceFuel batchIdx) none with
      | .error e => .error e
      | .ok pr =>
        let out2 := out ++ [progress] ++
          (if pr.1 then
            ["WARNING: nonce did not advance to " ++ toString expected ++
              " (got " ++ pyReprOptNat pr.2 ++ ")"]
          else [])
        dispatch_loop w cfg count fuel rest2 (batchIdx + 1) expected tS2 tF2 out2
          (bases ++ [(nonce, batch.length)]) (warned ++ [pr.1])

/-- The dispatch mode of main: read the starting pending nonce (fatal stderr
message and exit status 1 when every endpoint fails), then run the batch loop;
batch_size zero makes range raise ValueError.  Uncaught Python exceptions are
the .error outcomes. -/
def main_dispatch (w : DispatchWorld) (cfg : Config) (deposits : List DepositIntent)
    (count : Nat) : Except String DispatchResult :=
  match get_nonce w.pending cfg.el_endpoints with
  | .error e => .error e
  | .ok none =>
    .ok { exitCode := 1
          stdout := []
          stderr := ["ERROR: could not get nonce"]
          totalSent := 0
          totalFailed := 0
          finalNonce := none
          bases := []
          warned := [] }
  | .ok (some nonce0) =>
    if cfg.batch_size = 0 then .error "ValueError"
    else
      dispatch_loop w cfg count deposits.length deposits 0 nonce0 0 0
        ["Starting nonce: " ++ toString nonce0] [] []

/-- An endpoint fails a nonce read when its rpc_call outcome is Python falsy
or the decoded reply lacks a "result" key (the negation of the branch guard
in get_nonce). -/
def nonceFail (orep : Option Reply) : Bool :=
  match orep with
  | none => true
  | some r => !replyTruthy r || (getKey r "result").isNone

/-- The "result" value an endpoint contributes to broadcast_raw_tx: present
exactly when the reply is truthy and carries the key. -/
def resultOf (rpc : Endpoint → Option Reply) (ep : Endpoint) : Option PyVal :=
  match rpc ep with
  | some r => if replyTruthy r then getKey r "result" else none
  | none => none

/-- Well-formedness of one endpoint contribution: a present "result" value is
not JSON null (true of every eth_sendRawTransaction success reply). -/
def resultNotNull (ov : Option PyVal) : Bool :=
  match ov with
  | none => true
  | some .vnone => false
  | some _ => true

/-- A well-formed JSON-RPC success reply whose result is null: the standard
answer for a receipt query on a not-yet-included transaction. -/
def nullReply : Reply := [("result", PyVal.vnone)]

/-- A reply carrying a hex-string result. -/
def okReply (s : String) : Reply := [("result", PyVal.vstr s)]

/-- The batch bases recorded by a run chain from a starting nonce: each batch
base equals the running nonce, and the nonce then advances by that batch
length. -/
def Chained : Nat → List (Nat × Nat) → Prop
  | _, [] => True
  | n, p :: rest => p.1 = n ∧ Chained (p.1 + p.2) rest

/-- A dummy deposit intent for concrete runs. -/
def demoDeposit : DepositIntent :=
  { pubkey := "aa", withdrawal_credentials := "bb", signature := "cc", deposit_data_root := "dd" }

/-- A fully healthy concrete world: pending nonce 3, batch 0 signs two blobs,
later batches one, every broadcast accepted, every pacing poll reads 6. -/
def wDemo : DispatchWorld :=
  { pending := fun _ => some (okReply "0x3")
    docker := fun i =>
      if i = 0 then { returncode := 0, stdout := "0xaa\n0xbb" }
      else { returncode := 0, stdout := "0xcc" }
    bcast := fun _ _ _ => some (okReply "0xabcd")
    pace := fun _ _ _ => some (okReply "0x6")
    paceFuel := fun _ => 1 }

/-- Demo configuration: batch size 2, one endpoint. -/
def cfgDemo : Config := { batch_size := 2, el_endpoints := ["e1"] }

/-- The scenario-B world: the initial pending read answers nonce 0, but no
endpoint answers the signer liveness probe, so the signing container exits 1
with empty stdout; broadcast and pacing are never consulted. -/
def wSignerDown : DispatchWorld :=
  { pending := fun _ => some (okReply "0x0")
    docker := fun _ => { returncode := 1, stdout := "" }
    bcast := fun _ _ _ => none
    pace := fun _ _ _ => none
    paceFuel := fun _ => 0 }

/-- The observable outcome of the healthy demo run: 3 deposits in batches of
2 starting at nonce 3, everything accepted, the single pacing barrier
satisfied without warning. -/
def resDemo : DispatchResult :=
  { exitCode := 0
    stdout := ["Starting nonce: 3", "Sent 2/3 deposits (0 failed)",
      "Sent 3/3 deposits (0 failed)", "DONE sent=3 failed=0"]
    stderr := []
    totalSent := 3
    totalFailed := 0
    finalNonce := some 6
    bases := [(3, 2), (5, 1)]
    warned := [false] }

/-- A world where no endpoint ever answers the initial pending-nonce read. -/
def wDead : DispatchWorld :=
  { pending := fun _ => none
    docker := fun _ => { returncode := 1, stdout := "" }
    bcast := fun _ _ _ => none
    pace := fun _ _ _ => none
    paceFuel := fun _ => 0 }

/-- Broadcast demo oracle: endpoint e1 unreachable, every other endpoint
accepts with tx id 0xabc. -/
def rpcW4 : Endpoint -> Option Reply :=
  fun ep => if ep = "e1" then none else some (okReply "0xabc")

/-- Nonce demo oracle: endpoint e1 unreachable, every other endpoint answers
with result 0x1a. -/
def rpcW5 : Endpoint -> Option Reply :=
  fun ep => if ep = "e1" then none else some (okReply "0x1a")

/-! ## Helper lemmas -/

theorem get_nonce_skip (rpc : Endpoint → Option Reply) (ep : Endpoint) (rest : List Endpoint)
    (h : nonceFail (rpc ep) = true) :
    get_nonce rpc (ep :: rest) = get_nonce rpc rest := by
  unfold nonceFail at h
  cases hrpc : rpc ep with
  | none => simp [get_nonce, hrpc]
  | some r =>
    rw [hrpc] at h
    simp only [Bool.or_eq_true, Bool.not_eq_true'] at h
    cases h with
    | inl hT => simp [get_nonce, hrpc, hT]
    | inr hK =>
      have hK2 : getKey r "result" = none := Option.isNone_iff_eq_none.mp hK
      simp only [get_nonce, hrpc, hK2]
      split <;> rfl

theorem get_nonce_hit (rpc : Endpoint → Option Reply) (ep : Endpoint) (rest : List Endpoint)
    (r : Reply) (v : PyVal) (h1 : rpc ep = some r) (h2 : replyTruthy r = true)
    (h3 : getKey r "result" = some v) :
    get_nonce rpc (ep :: rest) = (pyIntHex v).map some := by
  simp [get_nonce, h1, h2, h3]

theorem get_nonce_all_fail (rpc : Endpoint → Option Reply) (eps : List Endpoint)
    (h : ∀ ep ∈ eps, nonceFail (rpc ep) = true) :
    get_nonce rpc eps = .ok none := by
  induction eps with
  | nil => rfl
  | cons ep rest ih =>
    rw [get_nonce_skip rpc ep rest (h ep (by simp))]
    exact ih fun e he => h e (by simp [he])

theorem getLast?_cons_getD {α : Type} (l : List α) (a b : α) :
    ((a :: l).getLast?).getD b = (l.getLast?).getD a := by
  cases l with
  | nil => rfl
  | cons c t =>
    rw [List.getLast?_cons_cons]
    cases h : (c :: t).getLast? with
    | none => exact absurd (List.getLast?_eq_none_iff.mp h) (by simp)
    | some x => rfl

theorem broadcast_step_resultOf (rpc : Endpoint → Option Reply) (ep : Endpoint) (h : PyVal) :
    broadcast_step h (rpc ep) = (resultOf rpc ep).getD h := by
  unfold broadcast_step resultOf
  cases rpc ep with
  | none => rfl
  | some r =>
    by_cases hT : replyTruthy r
    · simp only [hT, if_true]
      cases getKey r "result" <;> rfl
    · simp [hT]

theorem broadcast_foldl (rpc : Endpoint → Option Reply) :
    ∀ (eps : List Endpoint) (h : PyVal),
    List.foldl (fun acc ep => broadcast_step acc (rpc ep)) h eps =
      ((eps.filterMap (resultOf rpc)).getLast?).getD h := by
  intro eps
  induction eps with
  | nil => intro h; rfl
  | cons ep rest ih =>
    intro h
    rw [List.foldl_cons, ih, broadcast_step_resultOf, List.filterMap_cons]
    cases hr : resultOf rpc ep with
    | none => simp
    | some v => simp [getLast?_cons_getD]

theorem broadcast_eq_last (rpc : Endpoint → Option Reply) (eps : List Endpoint) (raw : String) :
    broadcast_raw_tx rpc eps raw = ((eps.filterMap (resultOf rpc)).getLast?).getD .vnone :=
  broadcast_foldl rpc eps .vnone

theorem filterMap_getLast?_mem (rpc : Endpoint → Option Reply) (eps : List Endpoint) (x : PyVal)
    (hL : (eps.filterMap (resultOf rpc)).getLast? = some x) :
    ∃ ep ∈ eps, resultOf rpc ep = some x := by
  have hx : x ∈ eps.filterMap (resultOf rpc) := by
    obtain ⟨hne, hxe⟩ := List.mem_getLast?_eq_getLast (l := eps.filterMap (resultOf rpc)) hL
    subst hxe
    exact List.getLast_mem hne
  exact List.mem_filterMap.mp hx

theorem receipt_round_truthy (rpc : Endpoint → Option Reply) :
    ∀ (eps : List Endpoint) (v : PyVal), receipt_round rpc eps = some v → pyTruthy v = true := by
  intro eps
  induction eps with
  | nil => intro v h; exact Option.noConfusion h
  | cons ep rest ih =>
    intro v h
    simp only [receipt_round] at h
    split at h
    · split at h
      · split at h
        · split at h
          · cases h
            assumption
          · exact ih v h
        · exact ih v h
      · exact ih v h
    · exact ih v h

theorem wait_for_receipt_aux_truthy (rpc : Nat → Endpoint → Option Reply)
    (eps : List Endpoint) :
    ∀ (fuel round : Nat) (v : PyVal),
    wait_for_receipt_aux rpc eps round fuel = some v → pyTruthy v = true := by
  intro fuel
  induction fuel with
  | zero => intro round v h; exact Option.noConfusion h
  | succ f ih =>
    intro round v h
    simp only [wait_for_receipt_aux] at h
    split at h
    · cases h
      exact receipt_round_truthy (rpc round) eps _ (by assumption)
    · exact ih (round + 1) v h

theorem receipt_round_null (eps : List Endpoint) :
    receipt_round (fun _ => some nullReply) eps = none := by
  induction eps with
  | nil => rfl
  | cons ep rest ih => exact ih

theorem wait_for_receipt_aux_null (eps : List Endpoint) :
    ∀ (fuel round : Nat),
    wait_for_receipt_aux (fun _ _ => some nullReply) eps round fuel = none := by
  intro fuel
  induction fuel with
  | zero => intro round; rfl
  | succ f ih =>
    intro round
    simp only [wait_for_receipt_aux, receipt_round_null]
    exact ih (round + 1)

theorem ceil_div_succ (len bs : Nat) (hbs : 0 < bs) (hlen : 0 < len) :
    (len + bs - 1) / bs = (len - 1) / bs + 1 := by
  have h1 : len + bs - 1 = (len - 1) + bs := by omega
  rw [h1, Nat.add_div_right _ hbs]

theorem dispatch_loop_nil (w : DispatchWorld) (cfg : Config) (count fuel batchIdx nonce tS tF : Nat)
    (out : List String) (bases : List (Nat × Nat)) (warned : List Bool) :
    dispatch_loop w cfg count fuel [] batchIdx nonce tS tF out bases warned =
      .ok { exitCode := 0
            stdout := out ++ ["DONE sent=" ++ toString tS ++ " failed=" ++ toString tF]
            stderr := []
            totalSent := tS
            totalFailed := tF
            finalNonce := some nonce
            bases := bases
            warned := warned } := by
  cases fuel <;> rfl

theorem take_drop_length_facts (bs : Nat) (l : List DepositIntent) :
    (l.take bs).length + (l.drop bs).length = l.length ∧
    (l.take bs).length ≤ bs ∧ (l.drop bs).length = l.length - bs := by
  refine ⟨?_, List.length_take_le bs l, List.length_drop bs l⟩
  have h := congrArg List.length (List.take_append_drop bs l)
  rwa [List.length_append] at h

theorem dispatch_loop_ok (w : DispatchWorld) (cfg : Config) (count : Nat)
    (hbs : 0 < cfg.batch_size) :
    ∀ (fuel : Nat) (remaining : List DepositIntent) (batchIdx nonce tS tF : Nat)
      (out : List String) (bases : List (Nat × Nat)) (warned : List Bool)
      (res : DispatchResult),
    dispatch_loop w cfg count fuel remaining batchIdx nonce tS tF out bases warned = .ok res →
    ∃ nb nw,
      res.bases = bases ++ nb ∧
      res.warned = warned ++ nw ∧
      Chained nonce nb ∧
      (∀ p ∈ nb, 0 < p.2 ∧ p.2 ≤ cfg.batch_size) ∧
      nb.length = (remaining.length + cfg.batch_size - 1) / cfg.batch_size ∧
      res.finalNonce = some (nonce + remaining.length) ∧
      res.exitCode = 0 ∧
      (remaining = [] →
        nb = [] ∧ nw = [] ∧ res.totalSent = tS ∧ res.totalFailed = tF ∧
        res.stdout = out ++ ["DONE sent=" ++ toString tS ++ " failed=" ++ toString tF]) ∧
      (remaining ≠ [] → nb.length = nw.length + 1) := by
  intro fuel
  induction fuel with
  | zero =>
    intro remaining batchIdx nonce tS tF out bases warned res h
    cases remaining with
    | nil =>
      rw [dispatch_loop_nil, Except.ok.injEq] at h
      subst h
      refine ⟨[], [], by simp, by simp, trivial, by simp, ?_, by simp, rfl, ?_, by simp⟩
      · simp only [List.length_nil]
        exact (Nat.div_eq_of_lt (by omega)).symm
      · intro _
        exact ⟨rfl, rfl, rfl, rfl, rfl⟩
    | cons d rest =>
      simp only [dispatch_loop] at h
      exact Except.noConfusion h
  | succ f ih =>
    intro remaining batchIdx nonce tS tF out bases warned res h
    cases remaining with
    | nil =>
      rw [dispatch_loop_nil, Except.ok.injEq] at h
      subst h
      refine ⟨[], [], by simp, by simp, trivial, by simp, ?_, by simp, rfl, ?_, by simp⟩
      · simp only [List.length_nil]
        exact (Nat.div_eq_of_lt (by omega)).symm
      · intro _
        exact ⟨rfl, rfl, rfl, rfl, rfl⟩
    | cons d rest =>
      obtain ⟨hsum, htle, hdrop⟩ := take_drop_length_facts cfg.batch_size (d :: rest)
      simp only [dispatch_loop] at h
      split at h
      case isTrue hEmp =>
        have hRest : (d :: rest).drop cfg.batch_size = [] := List.isEmpty_iff.mp hEmp
        have hlc : (d :: rest).length = rest.length + 1 := List.length_cons d rest
        rw [hRest] at h hdrop hsum
        simp only [List.length_nil] at hdrop hsum
        obtain ⟨nb2, nw2, hb, hw, hch, hpos, hlen, hfin, hexit, hnilc, hnec⟩ :=
          ih _ _ _ _ _ _ _ _ _ h
        obtain ⟨hnb2, hnw2, hts, htf, hout⟩ := hnilc rfl
        subst hnb2
        subst hnw2
        have hceil : ((d :: rest).length + cfg.batch_size - 1) / cfg.batch_size = 1 := by
          rw [ceil_div_succ _ _ hbs (by simp)]
          have h0 : ((d :: rest).length - 1) / cfg.batch_size = 0 :=
            Nat.div_eq_of_lt (by omega)
          omega
        refine ⟨[(nonce, ((d :: rest).take cfg.batch_size).length)], [], ?_, ?_,
          ⟨rfl, trivial⟩, ?_, ?_, ?_, hexit, ?_, ?_⟩
        · rw [hb]
          simp
        · rw [hw]
        · intro p hp
          simp only [List.mem_singleton] at hp
          subst hp
          simp only
          constructor
          · omega
          · exact htle
        · simp only [List.length_singleton]
          exact hceil.symm
        · rw [hfin]
          simp only [List.length_nil, Nat.add_zero, Option.some.injEq]
          omega
        · intro hcontra
          exact absurd hcontra (by simp)
        · intro _
          simp
      case isFalse hEmp =>
        have hRestNe : (d :: rest).drop cfg.batch_size ≠ [] := by
          intro hh
          rw [hh] at hEmp
          exact hEmp rfl
        have hdNe : 0 < ((d :: rest).drop cfg.batch_size).length :=
          List.length_pos.mpr hRestNe
        have hlc : (d :: rest).length = rest.length + 1 := List.length_cons d rest
        split at h
        next e heq => exact Except.noConfusion h
        next pr heq =>
          obtain ⟨nb2, nw2, hb, hw, hch, hpos, hlen, hfin, hexit, hnilc, hnec⟩ :=
            ih _ _ _ _ _ _ _ _ _ h
          refine ⟨(nonce, ((d :: rest).take cfg.batch_size).length) :: nb2, pr.1 :: nw2,
            ?_, ?_, ⟨rfl, hch⟩, ?_, ?_, ?_, hexit, ?_, ?_⟩
          · rw [hb]
            simp
          · rw [hw]
            simp
          · intro p hp
            simp only [List.mem_cons] at hp
            cases hp with
            | inl hp =>
              subst hp
              simp only
              constructor
              · omega
              · exact htle
            | inr hp => exact hpos p hp
          · simp only [List.length_cons]
            rw [hlen]
            have hnum : ((d :: rest).drop cfg.batch_size).length + cfg.batch_size - 1 =
                (d :: rest).length - 1 := by
              omega
            rw [hnum, ceil_div_succ _ _ hbs (by simp)]
            simp only [List.length_cons]
          · rw [hfin]
            simp only [Option.some.injEq]
            omega
          · intro hcontra
            exact absurd hcontra (by simp)
          · intro _
            have := hnec hRestNe
            simp only [List.length_cons]
            omega

theorem dispatch_loop_pace0 (w : DispatchWorld) (cfg : Config) (count : Nat)
    (hbs : 0 < cfg.batch_size) (hp : ∀ i, w.paceFuel i = 0) :
    ∀ (fuel : Nat) (remaining : List DepositIntent), remaining.length ≤ fuel →
    ∀ (batchIdx nonce tS tF : Nat) (out : List String) (bases : List (Nat × Nat))
      (warned : List Bool),
    ∃ res, dispatch_loop w cfg count fuel remaining batchIdx nonce tS tF out bases warned =
      .ok res := by
  intro fuel
  induction fuel with
  | zero =>
    intro remaining hle batchIdx nonce tS tF out bases warned
    cases remaining with
    | nil => exact ⟨_, dispatch_loop_nil w cfg count 0 batchIdx nonce tS tF out bases warned⟩
    | cons d rest => simp at hle
  | succ f ih =>
    intro remaining hle batchIdx nonce tS tF out bases warned
    cases remaining with
    | nil => exact ⟨_, dispatch_loop_nil w cfg count (f + 1) batchIdx nonce tS tF out bases warned⟩
    | cons d rest =>
      obtain ⟨hsum, htle, hdrop⟩ := take_drop_length_facts cfg.batch_size (d :: rest)
      have hlc : (d :: rest).length = rest.length + 1 := List.length_cons d rest
      simp only [dispatch_loop]
      split
      case isTrue hEmp =>
        have h0 : ((d :: rest).drop cfg.batch_size).length = 0 := by
          rw [List.isEmpty_iff.mp hEmp]
          rfl
        exact ih _ (by omega) _ _ _ _ _ _ _
      case isFalse hEmp =>
        rw [hp batchIdx]
        simp only [pace_loop]
        simp only [List.length_cons] at hle
        exact ih _ (by omega) _ _ _ _ _ _ _

theorem exists_last_result (rpc : Endpoint → Option Reply) (eps : List Endpoint)
    (hnn : ∀ ep ∈ eps, resultNotNull (resultOf rpc ep) = true)
    (ep : Endpoint) (hep : ep ∈ eps) (hne : resultOf rpc ep ≠ none) :
    ∃ x, (eps.filterMap (resultOf rpc)).getLast? = some x ∧ x ≠ PyVal.vnone := by
  cases hres : resultOf rpc ep with
  | none => exact absurd hres hne
  | some v =>
    have hvmem : v ∈ eps.filterMap (resultOf rpc) := List.mem_filterMap.mpr ⟨ep, hep, hres⟩
    have hLne : eps.filterMap (resultOf rpc) ≠ [] := by
      intro h0
      rw [h0] at hvmem
      exact absurd hvmem (List.not_mem_nil v)
    cases hL : (eps.filterMap (resultOf rpc)).getLast? with
    | none => exact absurd (List.getLast?_eq_none_iff.mp hL) hLne
    | some x =>
      refine ⟨x, rfl, ?_⟩
      obtain ⟨ep2, hep2, hres2⟩ := filterMap_getLast?_mem rpc eps x hL
      have hx := hnn ep2 hep2
      rw [hres2] at hx
      intro hEq
      rw [hEq] at hx
      simp [resultNotNull] at hx

/-! ## Claim theorems -/

/-- C1: end-to-end scenario B evaluated on the embedding: 10 intents, batch
size 10, all endpoints failing the signer liveness probe so the signing
container exits 1 with empty stdout, while the pending-nonce read succeeds
with nonce 0.  The run does complete with process exit status 0 as the claim
states, but the failed batch contributes exactly 1 (not 10) to the failed
count: sign_batch never inspects the container exit code and parses the empty
stdout into the single-slot list with one None, so the summary line is
DONE sent=0 failed=1 where the claim requires sent=0 failed=10. -/
theorem c1_signer_down_scenario_eval :
    main_dispatch wSignerDown { batch_size := 10, el_endpoints := ["e1"] }
      (List.replicate 10 demoDeposit) 10 =
    .ok { exitCode := 0
          stdout := ["Starting nonce: 0", "Sent 1/10 deposits (1 failed)",
            "DONE sent=0 failed=1"]
          stderr := []
          totalSent := 0
          totalFailed := 1
          finalNonce := some 10
          bases := [(0, 10)]
          warned := [] } := by
  rfl

/-- C2: over every world, any run with a positive batch size whose initial
pending-nonce read produced n0 and whose dispatch loop completed executed
exactly ceil(N / B) batches and left the expected sequence number at n0 + N,
however many items failed; the empty intent list gives zero batches and the
immediate terminal report with sent=0 failed=0 and exit status 0. -/
theorem c2_batch_count_final_nonce
    (w : DispatchWorld) (cfg : Config) (deposits : List DepositIntent) (count n0 : Nat)
    (res : DispatchResult)
    (hn : get_nonce w.pending cfg.el_endpoints = .ok (some n0))
    (hbs : 0 < cfg.batch_size)
    (hrun : main_dispatch w cfg deposits count = .ok res) :
    res.bases.length = (deposits.length + cfg.batch_size - 1) / cfg.batch_size ∧
    res.finalNonce = some (n0 + deposits.length) ∧
    (deposits = [] →
      res.bases = [] ∧ res.totalSent = 0 ∧ res.totalFailed = 0 ∧ res.exitCode = 0 ∧
      res.stdout = ["Starting nonce: " ++ toString n0, "DONE sent=0 failed=0"]) := by
  simp only [main_dispatch, hn] at hrun
  rw [if_neg (by omega)] at hrun
  obtain ⟨nb, nw, hb, hw, hch, hpos, hlen, hfin, hexit, hnilc, hnec⟩ :=
    dispatch_loop_ok w cfg count hbs _ _ _ _ _ _ _ _ _ _ hrun
  refine ⟨?_, hfin, ?_⟩
  · rw [hb]
    simpa using hlen
  · intro hdep
    subst hdep
    obtain ⟨hnb, hnw, hts, htf, hout⟩ := hnilc rfl
    subst hnb
    refine ⟨by simpa using hb, hts, htf, hexit, ?_⟩
    rw [hout]
    rfl

/-- Witness for C2: the healthy demo run, 3 intents with batch size 2 and
initial nonce 3, completes as resDemo; the theorem applies there and gives
2 batches and final expected nonce 6. -/
theorem c2_witness :
    get_nonce wDemo.pending cfgDemo.el_endpoints = .ok (some 3) ∧
    0 < cfgDemo.batch_size ∧
    main_dispatch wDemo cfgDemo (List.replicate 3 demoDeposit) 3 = .ok resDemo ∧
    (resDemo.bases.length =
      ((List.replicate 3 demoDeposit).length + cfgDemo.batch_size - 1) / cfgDemo.batch_size ∧
     resDemo.finalNonce = some (3 + (List.replicate 3 demoDeposit).length) ∧
     (List.replicate 3 demoDeposit = [] →
       resDemo.bases = [] ∧ resDemo.totalSent = 0 ∧ resDemo.totalFailed = 0 ∧
       resDemo.exitCode = 0 ∧
       resDemo.stdout = ["Starting nonce: " ++ toString 3, "DONE sent=0 failed=0"])) :=
  ⟨rfl, by decide, rfl,
    c2_batch_count_final_nonce wDemo cfgDemo (List.replicate 3 demoDeposit) 3 3 resDemo rfl
      (by decide) rfl⟩

/-- C3: when the initial pending-nonce read fails on every endpoint (the
quorum reader returns None), the run ends immediately with the fatal message
on stderr and exit status 1, zero batches, zero totals, and no output on
stdout; the result is this fixed record for every world agreeing on that
read, so no signing or broadcast oracle is ever consulted. -/
theorem c3_initial_nonce_failure_fatal
    (w : DispatchWorld) (cfg : Config) (deposits : List DepositIntent) (count : Nat)
    (hn : get_nonce w.pending cfg.el_endpoints = .ok none) :
    main_dispatch w cfg deposits count =
      .ok { exitCode := 1
            stdout := []
            stderr := ["ERROR: could not get nonce"]
            totalSent := 0
            totalFailed := 0
            finalNonce := none
            bases := []
            warned := [] } := by
  simp only [main_dispatch, hn]

/-- Witness for C3: a world in which no endpoint answers the pending read. -/
theorem c3_witness :
    get_nonce wDead.pending ["e1"] = .ok none ∧
    main_dispatch wDead { batch_size := 10, el_endpoints := ["e1"] } [demoDeposit] 1 =
      .ok { exitCode := 1
            stdout := []
            stderr := ["ERROR: could not get nonce"]
            totalSent := 0
            totalFailed := 0
            finalNonce := none
            bases := []
            warned := [] } :=
  ⟨rfl, c3_initial_nonce_failure_fatal wDead { batch_size := 10, el_endpoints := ["e1"] }
    [demoDeposit] 1 rfl⟩

/-- C4: under well-formed replies (a present result value is never null, as
for every real eth_sendRawTransaction success), the broadcaster returns
Python None exactly when every endpoint fails or rejects the send
(contributes no result value), and when at least one endpoint accepts it
returns the non-None value of the last accepting endpoint in list order. -/
theorem c4_broadcast_none_iff_all_fail
    (rpc : Endpoint → Option Reply) (eps : List Endpoint) (raw : String)
    (hnn : ∀ ep ∈ eps, resultNotNull (resultOf rpc ep) = true) :
    (broadcast_raw_tx rpc eps raw = .vnone ↔ ∀ ep ∈ eps, resultOf rpc ep = none) ∧
    ((∃ ep ∈ eps, resultOf rpc ep ≠ none) →
      (eps.filterMap (resultOf rpc)).getLast? = some (broadcast_raw_tx rpc eps raw) ∧
      broadcast_raw_tx rpc eps raw ≠ .vnone) := by
  have hbl := broadcast_eq_last rpc eps raw
  constructor
  · constructor
    · intro hv ep hep
      by_contra hne
      obtain ⟨x, hL, hxne⟩ := exists_last_result rpc eps hnn ep hep hne
      rw [hbl, hL] at hv
      exact hxne (by simpa using hv)
    · intro hall
      rw [hbl, List.filterMap_eq_nil_iff.mpr hall]
      rfl
  · rintro ⟨ep, hep, hne⟩
    obtain ⟨x, hL, hxne⟩ := exists_last_result rpc eps hnn ep hep hne
    rw [hbl, hL]
    exact ⟨by simp, by simpa using hxne⟩

/-- Witness for C4: endpoint e1 unreachable, endpoint e2 accepts with id
0xabc; the iff and the last-accepting-endpoint clause are instantiated
there. -/
theorem c4_witness :
    (broadcast_raw_tx rpcW4 ["e1", "e2"] "0xraw" = .vnone ↔
      ∀ ep ∈ ["e1", "e2"], resultOf rpcW4 ep = none) ∧
    ((["e1", "e2"].filterMap (resultOf rpcW4)).getLast? =
        some (broadcast_raw_tx rpcW4 ["e1", "e2"] "0xraw") ∧
      broadcast_raw_tx rpcW4 ["e1", "e2"] "0xraw" ≠ .vnone) :=
  ⟨(c4_broadcast_none_iff_all_fail rpcW4 ["e1", "e2"] "0xraw" (by decide)).1,
   (c4_broadcast_none_iff_all_fail rpcW4 ["e1", "e2"] "0xraw" (by decide)).2
     ⟨"e2", by decide, fun h => Option.noConfusion h⟩⟩

/-- C5: the quorum nonce reader walks the endpoint list in order: an empty
list gives None; a head endpoint whose reply is truthy with a "result" key
decides the outcome whatever the tail holds (later endpoints are not
consulted); a failing head endpoint is skipped so a succeeding second
endpoint wins; and when every endpoint fails it returns None. -/
theorem c5_quorum_first_success :
    (∀ rpc : Endpoint → Option Reply, get_nonce rpc [] = .ok none) ∧
    (∀ (rpc : Endpoint → Option Reply) (ep : Endpoint) (rest : List Endpoint)
        (r : Reply) (v : PyVal),
      rpc ep = some r → replyTruthy r = true → getKey r "result" = some v →
      get_nonce rpc (ep :: rest) = (pyIntHex v).map some) ∧
    (∀ (rpc : Endpoint → Option Reply) (ep : Endpoint) (rest : List Endpoint),
      nonceFail (rpc ep) = true → get_nonce rpc (ep :: rest) = get_nonce rpc rest) ∧
    (∀ (rpc : Endpoint → Option Reply) (eps : List Endpoint),
      (∀ ep ∈ eps, nonceFail (rpc ep) = true) → get_nonce rpc eps = .ok none) :=
  ⟨fun _ => rfl, get_nonce_hit, get_nonce_skip, get_nonce_all_fail⟩

/-- Witness for C5: endpoint e1 down and endpoint e2 answering 0x1a: the
reader skips e1, takes the value of e2 (26), and an all-dead endpoint set
gives None. -/
theorem c5_witness :
    nonceFail (rpcW5 "e1") = true ∧
    get_nonce rpcW5 ["e1", "e2"] = get_nonce rpcW5 ["e2"] ∧
    get_nonce rpcW5 ["e2"] = (pyIntHex (PyVal.vstr "0x1a")).map some ∧
    get_nonce rpcW5 ["e1", "e2"] = .ok (some 26) ∧
    get_nonce (fun _ => none) ["e1", "e2"] = .ok none :=
  ⟨by decide,
   c5_quorum_first_success.2.2.1 rpcW5 "e1" ["e2"] (by decide),
   c5_quorum_first_success.2.1 rpcW5 "e2" [] (okReply "0x1a") (PyVal.vstr "0x1a") rfl rfl rfl,
   ((c5_quorum_first_success.2.2.1 rpcW5 "e1" ["e2"] (by decide)).trans
     (c5_quorum_first_success.2.1 rpcW5 "e2" [] (okReply "0x1a") (PyVal.vstr "0x1a")
       rfl rfl rfl)).trans rfl,
   c5_quorum_first_success.2.2.2 (fun _ => none) ["e1", "e2"] (by decide)⟩

theorem chained_chain_lt : ∀ (l : List (Nat × Nat)) (start : Nat), Chained start l →
    (∀ p ∈ l, 0 < p.2) → List.Chain' (fun p q => p.1 < q.1) l := by
  intro l
  induction l with
  | nil => intro start _ _; exact List.chain'_nil
  | cons p rest ih =>
    intro start hch hpos
    obtain ⟨hp1, hrest⟩ := hch
    cases rest with
    | nil => simp
    | cons q t =>
      rw [List.chain'_cons]
      obtain ⟨hq1, ht⟩ := hrest
      constructor
      · have hpp := hpos p (by simp)
        omega
      · exact ih (p.1 + p.2) ⟨hq1, ht⟩ (fun x hx => hpos x (by simp [hx]))

theorem sign_cmd_nonces_pairwise (deposits : List DepositIntent) (base : Nat) :
    List.Pairwise (· < ·) (sign_cmd_nonces deposits base) :=
  List.Pairwise.map _ (fun a b h => by omega) (List.pairwise_lt_range _)

/-- C6: for any completed run with initial nonce n0, the recorded batch bases
chain: each base equals the running nonce, each batch advances it by the full
batch length whatever failed inside (Chained), the batch lengths are positive
and bounded by the batch size, the bases are strictly increasing, and inside
one batch the signing script assigns the contiguous nonces base, base + 1,
..., a strictly increasing sequence. -/
theorem c6_sequence_consumption
    (w : DispatchWorld) (cfg : Config) (deposits : List DepositIntent) (count n0 : Nat)
    (res : DispatchResult)
    (hn : get_nonce w.pending cfg.el_endpoints = .ok (some n0))
    (hbs : 0 < cfg.batch_size)
    (hrun : main_dispatch w cfg deposits count = .ok res) :
    Chained n0 res.bases ∧
    (∀ p ∈ res.bases, 0 < p.2 ∧ p.2 ≤ cfg.batch_size) ∧
    List.Chain' (fun p q => p.1 < q.1) res.bases ∧
    (∀ (deps : List DepositIntent) (base : Nat),
      sign_cmd_nonces deps base = (List.range deps.length).map (fun i => base + i) ∧
      List.Pairwise (· < ·) (sign_cmd_nonces deps base)) := by
  simp only [main_dispatch, hn] at hrun
  rw [if_neg (by omega)] at hrun
  obtain ⟨nb, nw, hb, hw, hch, hpos, hlen, hfin, hexit, hnilc, hnec⟩ :=
    dispatch_loop_ok w cfg count hbs _ _ _ _ _ _ _ _ _ _ hrun
  have hbe : res.bases = nb := by simpa using hb
  rw [hbe]
  exact ⟨hch, hpos, chained_chain_lt nb n0 hch (fun p hp => (hpos p hp).1),
    fun deps base => ⟨rfl, sign_cmd_nonces_pairwise deps base⟩⟩

/-- Witness for C6: the demo run records bases (3, 2) then (5, 1): 5 = 3 + 2
even though nothing failed is forced; the chain and bounds are instantiated
by the theorem. -/
theorem c6_witness :
    get_nonce wDemo.pending cfgDemo.el_endpoints = .ok (some 3) ∧
    main_dispatch wDemo cfgDemo (List.replicate 3 demoDeposit) 3 = .ok resDemo ∧
    Chained 3 resDemo.bases ∧
    (∀ p ∈ resDemo.bases, 0 < p.2 ∧ p.2 ≤ cfgDemo.batch_size) ∧
    List.Chain' (fun p q => p.1 < q.1) resDemo.bases :=
  have h := c6_sequence_consumption wDemo cfgDemo (List.replicate 3 demoDeposit) 3 3 resDemo
    rfl (by decide) rfl
  ⟨rfl, rfl, h.1, h.2.1, h.2.2.1⟩

/-- C7: the pacing barrier: with the deadline already passed (fuel 0) it
returns with the warned flag and does not abort; a poll that reads a value at
least the expected sequence number stops it at once without warning; a poll
that misses just moves to the next round; in any completed run with deposits
the barrier ran after every batch except the last (one warned flag per batch
but one); and a run whose barriers all time out immediately still completes
with exit status 0 - a pacing timeout never aborts the run. -/
theorem c7_pacing_barrier :
    (∀ (rpc : Nat → Endpoint → Option Reply) (eps : List Endpoint) (E round : Nat)
        (cur : Option Nat),
      pace_loop rpc eps E round 0 cur = .ok (true, cur)) ∧
    (∀ (rpc : Nat → Endpoint → Option Reply) (eps : List Endpoint) (E round f : Nat)
        (cur : Option Nat) (c : Nat),
      get_nonce (rpc round) eps = .ok (some c) → E ≤ c →
      pace_loop rpc eps E round (f + 1) cur = .ok (false, some c)) ∧
    (∀ (rpc : Nat → Endpoint → Option Reply) (eps : List Endpoint) (E round f : Nat)
        (cur : Option Nat) (r : Option Nat),
      get_nonce (rpc round) eps = .ok r → (∀ c, r = some c → c < E) →
      pace_loop rpc eps E round (f + 1) cur = pace_loop rpc eps E (round + 1) f r) ∧
    (∀ (w : DispatchWorld) (cfg : Config) (deposits : List DepositIntent) (count : Nat)
        (res : DispatchResult),
      main_dispatch w cfg deposits count = .ok res → res.exitCode = 0 → deposits ≠ [] →
      res.bases.length = res.warned.length + 1) ∧
    (∀ (w : DispatchWorld) (cfg : Config) (deposits : List DepositIntent) (count n0 : Nat),
      get_nonce w.pending cfg.el_endpoints = .ok (some n0) → 0 < cfg.batch_size →
      (∀ i, w.paceFuel i = 0) →
      ∃ res, main_dispatch w cfg deposits count = .ok res ∧ res.exitCode = 0) := by
  refine ⟨fun _ _ _ _ _ => rfl, ?_, ?_, ?_, ?_⟩
  · intro rpc eps E round f cur c h1 h2
    simp only [pace_loop, h1]
    rw [if_pos h2]
  · intro rpc eps E round f cur r h1 hlt
    cases r with
    | some c =>
      simp only [pace_loop, h1]
      rw [if_neg (Nat.not_le.mpr (hlt c rfl))]
    | none => simp only [pace_loop, h1]
  · intro w cfg deposits count res hrun hexit0 hdep
    simp only [main_dispatch] at hrun
    split at hrun
    · exact Except.noConfusion hrun
    · rw [Except.ok.injEq] at hrun
      subst hrun
      simp at hexit0
    · split at hrun
      · exact Except.noConfusion hrun
      next hbs0 =>
        obtain ⟨nb, nw, hb, hw, hch, hpos, hlen, hfin, hexit, hnilc, hnec⟩ :=
          dispatch_loop_ok w cfg count (by omega) _ _ _ _ _ _ _ _ _ _ hrun
        rw [hb, hw]
        simpa using hnec hdep
  · intro w cfg deposits count n0 hn hbs hp
    obtain ⟨res, hres⟩ := dispatch_loop_pace0 w cfg count hbs hp deposits.length deposits
      le_rfl 0 n0 0 0 ["Starting nonce: " ++ toString n0] [] []
    refine ⟨res, ?_, ?_⟩
    · simp only [main_dispatch, hn]
      rw [if_neg (by omega)]
      exact hres
    · obtain ⟨nb, nw, _, _, _, _, _, _, hexit, _, _⟩ :=
        dispatch_loop_ok w cfg count hbs _ _ _ _ _ _ _ _ _ _ hres
      exact hexit

/-- Witness for C7: a pacing poll reading 6 against expected 5 ends the
barrier without warning; the demo run has 2 batches and exactly 1 barrier;
and the demo world with every pacing deadline already elapsed still completes
with exit 0. -/
theorem c7_witness :
    (get_nonce (wDemo.pace 0 0) ["e1"] = .ok (some 6) ∧
     pace_loop (wDemo.pace 0) ["e1"] 5 0 1 none = .ok (false, some 6)) ∧
    (main_dispatch wDemo cfgDemo (List.replicate 3 demoDeposit) 3 = .ok resDemo ∧
     resDemo.bases.length = resDemo.warned.length + 1) ∧
    (∃ res, main_dispatch
        { pending := wDemo.pending, docker := wDemo.docker, bcast := wDemo.bcast,
          pace := wDemo.pace, paceFuel := fun _ => 0 }
        cfgDemo (List.replicate 3 demoDeposit) 3 = .ok res ∧ res.exitCode = 0) :=
  ⟨⟨rfl, c7_pacing_barrier.2.1 (wDemo.pace 0) ["e1"] 5 0 0 none 6 rfl (by decide)⟩,
   ⟨rfl, c7_pacing_barrier.2.2.2.1 wDemo cfgDemo (List.replicate 3 demoDeposit) 3 resDemo
     rfl rfl (by intro h; exact absurd (congrArg List.length h) (by decide))⟩,
   c7_pacing_barrier.2.2.2.2 _ cfgDemo (List.replicate 3 demoDeposit) 3 3 rfl (by decide)
     (fun _ => rfl)⟩

/-- C8: the mint helper returns success only when a receipt poll succeeded
within the fuel window; a nonzero signer exit, a stripped output that does
not start with 0x (including empty output), or a falsy broadcast outcome
yield failure for every receipt oracle and every wait window, so no receipt
wait happens on those paths; and the mint process exit status is 0 on success
and 1 on failure. -/
theorem c8_mint_receipt_gate :
    (∀ (eps : List Endpoint) (docker : DockerResult) (bc : Endpoint → Option Reply)
        (rc : Nat → Endpoint → Option Reply) (fuel : Nat),
      mint_tokens eps docker bc rc fuel = true →
      ∃ v, wait_for_receipt rc eps fuel = some v) ∧
    (∀ (eps : List Endpoint) (docker : DockerResult) (bc : Endpoint → Option Reply)
        (rc : Nat → Endpoint → Option Reply) (fuel : Nat),
      docker.returncode ≠ 0 → mint_tokens eps docker bc rc fuel = false) ∧
    (∀ (eps : List Endpoint) (docker : DockerResult) (bc : Endpoint → Option Reply)
        (rc : Nat → Endpoint → Option Reply) (fuel : Nat),
      pyStartsWith (pyStrip docker.stdout) "0x" = false →
      mint_tokens eps docker bc rc fuel = false) ∧
    (∀ (eps : List Endpoint) (docker : DockerResult) (bc : Endpoint → Option Reply)
        (rc : Nat → Endpoint → Option Reply) (fuel : Nat),
      pyTruthy (broadcast_raw_tx bc eps (pyStrip docker.stdout)) = false →
      mint_tokens eps docker bc rc fuel = false) ∧
    (∀ (eps : List Endpoint) (docker : DockerResult) (bc : Endpoint → Option Reply)
        (rc : Nat → Endpoint → Option Reply) (fuel : Nat),
      main_mint eps docker bc rc fuel = if mint_tokens eps docker bc rc fuel then 0 else 1) := by
  refine ⟨?_, ?_, ?_, ?_, fun _ _ _ _ _ => rfl⟩
  · intro eps docker bc rc fuel h
    simp only [mint_tokens] at h
    split at h
    · exact Bool.noConfusion h
    · split at h
      · exact Bool.noConfusion h
      · split at h
        · exact Bool.noConfusion h
        · split at h
          · exact Bool.noConfusion h
          · exact Option.isSome_iff_exists.mp h
  · intro eps docker bc rc fuel h
    simp [mint_tokens, h]
  · intro eps docker bc rc fuel h
    simp only [mint_tokens]
    split
    · rfl
    · split
      · rfl
      · rw [h]
        simp
  · intro eps docker bc rc fuel h
    simp only [mint_tokens]
    split
    · rfl
    · split
      · rfl
      · split
        · rfl
        · rw [h]
          simp
  
/-- Witness for C8: a nonzero signer exit yields failure for any receipt
oracle; a fully healthy mint run succeeds and the theorem extracts its
receipt; the failing mint exits 1. -/
theorem c8_witness :
    mint_tokens ["e1"] { returncode := 1, stdout := "" } (fun _ => none) (fun _ _ => none) 3 =
      false ∧
    (mint_tokens ["e1"] { returncode := 0, stdout := "0x1\n" } (fun _ => some (okReply "0xh"))
        (fun _ _ => some [("result", PyVal.vdict [("status", PyVal.vstr "0x1")])]) 1 = true ∧
     ∃ v, wait_for_receipt
        (fun _ _ => some [("result", PyVal.vdict [("status", PyVal.vstr "0x1")])]) ["e1"] 1 =
        some v) ∧
    main_mint ["e1"] { returncode := 1, stdout := "" } (fun _ => none) (fun _ _ => none) 3 = 1 :=
  ⟨c8_mint_receipt_gate.2.1 ["e1"] { returncode := 1, stdout := "" } (fun _ => none)
      (fun _ _ => none) 3 (by decide),
   ⟨rfl, c8_mint_receipt_gate.1 ["e1"] { returncode := 0, stdout := "0x1\n" }
      (fun _ => some (okReply "0xh"))
      (fun _ _ => some [("result", PyVal.vdict [("status", PyVal.vstr "0x1")])]) 1 rfl⟩,
   rfl⟩

/-- C9: the RPC client is a total function of the transport outcome: every
exception inside the try block (transport error, non-2xx status raised by
urllib, timeout) and every body json.loads rejects give Python None, a
decoded body is returned as is, and a call consumes exactly one transport
event of its trace - no retries at this layer. -/
theorem c9_rpc_soft_fail :
    (∀ (endpoint method : String) (params : List PyVal) (timeout : Nat),
      rpc_call endpoint method params timeout .fail = none) ∧
    (∀ (endpoint method : String) (params : List PyVal) (timeout : Nat),
      rpc_call endpoint method params timeout (.reply none) = none) ∧
    (∀ (endpoint method : String) (params : List PyVal) (timeout : Nat) (j : Reply),
      rpc_call endpoint method params timeout (.reply (some j)) = some j) ∧
    (∀ (endpoint method : String) (params : List PyVal) (timeout : Nat) (t : Transport)
        (ts : List Transport),
      rpc_call_trace endpoint method params timeout (t :: ts) =
        (rpc_call endpoint method params timeout t, ts)) :=
  ⟨fun _ _ _ _ => rfl, fun _ _ _ _ => rfl, fun _ _ _ _ _ => rfl, fun _ _ _ _ _ _ => rfl⟩

/-- C10: the receipt wait returns a value only when some reply carried a
truthy result; the standard null-result success reply is treated as not yet
observed, so an oracle answering result null forever yields None at every
deadline; whereas the nonce reader accepts any truthy reply that merely
contains the result key - on that same null reply it stops at the first
endpoint and feeds None to int(), a TypeError, instead of polling on. -/
theorem c10_receipt_vs_nonce_result :
    (∀ (rpc : Nat → Endpoint → Option Reply) (eps : List Endpoint) (fuel : Nat) (v : PyVal),
      wait_for_receipt rpc eps fuel = some v → pyTruthy v = true) ∧
    (∀ (eps : List Endpoint) (fuel : Nat),
      wait_for_receipt (fun _ _ => some nullReply) eps fuel = none) ∧
    (∀ (ep : Endpoint) (rest : List Endpoint),
      get_nonce (fun _ => some nullReply) (ep :: rest) = .error "TypeError") :=
  ⟨fun rpc eps fuel v h => wait_for_receipt_aux_truthy rpc eps fuel 0 v h,
   fun eps fuel => wait_for_receipt_aux_null eps fuel 0,
   fun _ _ => rfl⟩

/-- Witness for C10: a truthy receipt object returned by the wait loop is
certified truthy by the theorem. -/
theorem c10_witness :
    wait_for_receipt (fun _ _ => some [("result", PyVal.vdict [("status", PyVal.vstr "0x1")])])
      ["e1"] 2 = some (PyVal.vdict [("status", PyVal.vstr "0x1")]) ∧
    pyTruthy (PyVal.vdict [("status", PyVal.vstr "0x1")]) = true :=
  ⟨rfl, c10_receipt_vs_nonce_result.1
    (fun _ _ => some [("result", PyVal.vdict [("status", PyVal.vstr "0x1")])]) ["e1"] 2
    (PyVal.vdict [("status", PyVal.vstr "0x1")]) rfl⟩
